import Mathlib

/-!
Shallow embedding of `src/util/malloc/library.rs` (module `win_malloc`):
a manual-alignment malloc shim built on an unaligned host heap primitive
(`HeapAlloc` / `HeapFree` / `HeapSize`).  Pointers and `usize` values are
modelled as `Nat` (with `% 2^64` where machine wrap-around matters, and the
null pointer as `0`); byte-addressed memory is a total function `Nat → Nat`
whose writes store values reduced mod 256.  The host heap is an abstract
state-passing backend so that theorems quantify over every backend behaviour;
concrete executable backends (a bump allocator, an always-failing heap, a
request-recording heap) instantiate the theorems on closed inputs.
-/

namespace WinMalloc

/-- Width of a machine word: the model uses 64-bit `usize` / pointers. -/
def U64 : Nat := 2 ^ 64

/-- All-ones 64-bit mask, used to model the `!` (bitwise not) of `usize`. -/
def MASK64 : Nat := U64 - 1

/-- Value of `std::mem::size_of::<*mut c_void>()` on the modelled target. -/
def PTR_SIZE : Nat := 8

/-- Constant `MALLOC_ALIGNMENT` from the source: all allocations 16-byte aligned. -/
def MALLOC_ALIGNMENT : Nat := 16

/-- Error code returned by `posix_memalign` on backend exhaustion (`ENOMEM`). -/
def ENOMEM : Int := 12

/-- Byte-addressed memory: address to stored byte. -/
abbrev Mem := Nat → Nat

/-- Store one byte (the written value is reduced mod 256, as real memory does). -/
def writeByte (m : Mem) (a v : Nat) : Mem :=
  fun x => if x = a then v % 256 else m x

/-- Store the `k` low-order bytes of `v` at `a, a+1, ...` (little endian). -/
def writeBytesLE : Mem → Nat → Nat → Nat → Mem
  | m, _, _, 0 => m
  | m, a, v, k + 1 => writeBytesLE (writeByte m a v) (a + 1) (v / 256) k

/-- Read `k` bytes starting at `a` as a little-endian number. -/
def readBytesLE : Mem → Nat → Nat → Nat
  | _, _, 0 => 0
  | m, a, k + 1 => m a % 256 + 256 * readBytesLE m (a + 1) k

/-- Store a pointer-sized word, modelling `*(p as *mut *mut c_void) = v`. -/
def writeWord (m : Mem) (a v : Nat) : Mem := writeBytesLE m a v PTR_SIZE

/-- Read a pointer-sized word, modelling `*(p as *mut *mut c_void)`. -/
def readWord (m : Mem) (a : Nat) : Nat := readBytesLE m a PTR_SIZE

/-- Model of `ptr::write_bytes(a, v, n)`: fill `n` bytes starting at `a`. -/
def setRange (m : Mem) (a n v : Nat) : Mem :=
  fun x => if a ≤ x ∧ x < a + n then v % 256 else m x

/-- Model of `ptr::copy_nonoverlapping(src, dst, n)`: destination bytes take
the source's pre-copy values (exact for the non-overlapping contract). -/
def copyMem (m : Mem) (src dst n : Nat) : Mem :=
  fun x => if dst ≤ x ∧ x < dst + n then m (src + (x - dst)) else m x

/-- Abstract host heap (`HeapAlloc`/`HeapFree`/`HeapSize` on the process heap),
state-passing; `heapAlloc` returns `0` for a null (failed) allocation. -/
structure Backend (σ : Type) where
  heapAlloc : σ → Nat → Nat × σ
  heapFree : σ → Nat → σ
  heapSize : σ → Nat → Nat

/-- Machine state seen by the allocator: backend state plus byte memory. -/
structure St (σ : Type) where
  bk : σ
  mem : Mem

/-- Alignment arithmetic from the source:
`(original_ptr as usize + size_of::<*mut c_void>() + alignment - 1) & !(alignment - 1)`,
with `!` rendered as xor against the 64-bit all-ones mask. -/
def alignedOffset (original_ptr alignment : Nat) : Nat :=
  (original_ptr + PTR_SIZE + alignment - 1) &&& (MASK64 ^^^ (alignment - 1))

/-- Embedding of `posix_memalign`.  The out-parameter `memptr` is modelled by
the `Option Nat` component: `none` means the word behind `memptr` was never
written, `some p` means `p` was stored through it. -/
def posix_memalign {σ : Type} (B : Backend σ) (st : St σ) (alignment size : Nat) :
    Int × Option Nat × St σ :=
  let total_size := (size + alignment + PTR_SIZE) % U64
  let ar := B.heapAlloc st.bk total_size
  let original_ptr := ar.1
  if original_ptr = 0 then
    (ENOMEM, none, ⟨ar.2, st.mem⟩)
  else
    let aligned_ptr := alignedOffset original_ptr alignment
    (0, some aligned_ptr, ⟨ar.2, writeWord st.mem (aligned_ptr - PTR_SIZE) original_ptr⟩)

/-- Embedding of `free`: null is a no-op; otherwise the header word right
before the pointer is read back and handed to the backend heap free. -/
def free {σ : Type} (B : Backend σ) (st : St σ) (ptr : Nat) : St σ :=
  if ptr = 0 then st
  else ⟨B.heapFree st.bk (readWord st.mem (ptr - PTR_SIZE)), st.mem⟩

/-- Embedding of `malloc`: `ptr` starts null and `posix_memalign` may set it. -/
def malloc {σ : Type} (B : Backend σ) (st : St σ) (size : Nat) : Nat × St σ :=
  let r := posix_memalign B st MALLOC_ALIGNMENT size
  (r.2.1.getD 0, r.2.2)

/-- Embedding of `calloc`: `total_size = nmemb * size` with `usize` wrap-around. -/
def calloc {σ : Type} (B : Backend σ) (st : St σ) (nmemb size : Nat) : Nat × St σ :=
  let total_size := (nmemb * size) % U64
  let r := malloc B st total_size
  if r.1 ≠ 0 then (r.1, ⟨r.2.bk, setRange r.2.mem r.1 total_size 0⟩) else r

/-- Embedding of `malloc_usable_size`: recover the backend pointer from the
header and ask the backend (`HeapSize`) for its size; 0 on null. -/
def malloc_usable_size {σ : Type} (B : Backend σ) (st : St σ) (ptr : Nat) : Nat :=
  if ptr = 0 then 0
  else B.heapSize st.bk (readWord st.mem (ptr - PTR_SIZE))

/-- Embedding of `realloc`. -/
def realloc {σ : Type} (B : Backend σ) (st : St σ) (ptr size : Nat) : Nat × St σ :=
  if ptr = 0 then malloc B st size
  else if size = 0 then
    (0, free B st ptr)
  else
    let r := malloc B st size
    let new_ptr := r.1
    if new_ptr ≠ 0 then
      let old_size := malloc_usable_size B r.2 ptr
      let copy_size := if old_size < size then old_size else size
      let st2 : St σ := ⟨r.2.bk, copyMem r.2.mem ptr new_ptr copy_size⟩
      (new_ptr, free B st2 ptr)
    else r

/-! Memory lemmas. -/

theorem writeByte_ne (m : Mem) (a v x : Nat) (h : x ≠ a) : writeByte m a v x = m x :=
  if_neg h

theorem writeBytesLE_lt (k : Nat) :
    ∀ (m : Mem) (a v x : Nat), x < a → writeBytesLE m a v k x = m x := by
  induction k with
  | zero => intro m a v x _; rfl
  | succ k ih =>
    intro m a v x hx
    show writeBytesLE (writeByte m a v) (a + 1) (v / 256) k x = m x
    rw [ih _ _ _ _ (by omega), writeByte_ne _ _ _ _ (by omega)]

theorem writeBytesLE_ge (k : Nat) :
    ∀ (m : Mem) (a v x : Nat), a + k ≤ x → writeBytesLE m a v k x = m x := by
  induction k with
  | zero => intro m a v x _; rfl
  | succ k ih =>
    intro m a v x hx
    show writeBytesLE (writeByte m a v) (a + 1) (v / 256) k x = m x
    rw [ih _ _ _ _ (by omega), writeByte_ne _ _ _ _ (by omega)]

theorem readBytesLE_congr (k : Nat) :
    ∀ (m1 m2 : Mem) (a : Nat), (∀ x, a ≤ x → x < a + k → m1 x = m2 x) →
      readBytesLE m1 a k = readBytesLE m2 a k := by
  induction k with
  | zero => intro m1 m2 a _; rfl
  | succ k ih =>
    intro m1 m2 a h
    show m1 a % 256 + 256 * readBytesLE m1 (a + 1) k =
      m2 a % 256 + 256 * readBytesLE m2 (a + 1) k
    rw [h a (by omega) (by omega), ih m1 m2 (a + 1) (fun x h1 h2 => h x (by omega) (by omega))]

theorem mod_mul_decomp (b c v : Nat) : v % (b * c) = v % b + b * (v / b % c) := by
  have h1 : b * (v / b) + v % b = v := Nat.div_add_mod v b
  have h2 : c * (v / b / c) + v / b % c = v / b := Nat.div_add_mod (v / b) c
  have h3 : v / b / c = v / (b * c) := Nat.div_div_eq_div_mul v b c
  have h4 : b * c * (v / (b * c)) + v % (b * c) = v := Nat.div_add_mod v (b * c)
  have key : b * c * (v / (b * c)) + (v % b + b * (v / b % c)) =
      b * c * (v / (b * c)) + v % (b * c) := by
    calc b * c * (v / (b * c)) + (v % b + b * (v / b % c))
        = b * (c * (v / b / c) + v / b % c) + v % b := by rw [h3]; ring
      _ = b * (v / b) + v % b := by rw [h2]
      _ = v := h1
      _ = b * c * (v / (b * c)) + v % (b * c) := h4.symm
  exact (Nat.add_left_cancel key).symm

theorem readBytesLE_writeBytesLE (k : Nat) :
    ∀ (m : Mem) (a v : Nat), readBytesLE (writeBytesLE m a v k) a k = v % 256 ^ k := by
  induction k with
  | zero => intro m a v; simp [readBytesLE, Nat.mod_one]
  | succ k ih =>
    intro m a v
    show (writeBytesLE (writeByte m a v) (a + 1) (v / 256) k) a % 256 +
        256 * readBytesLE (writeBytesLE (writeByte m a v) (a + 1) (v / 256) k) (a + 1) k =
        v % 256 ^ (k + 1)
    rw [writeBytesLE_lt k _ _ _ _ (by omega), ih]
    show writeByte m a v a % 256 + 256 * (v / 256 % 256 ^ k) = v % 256 ^ (k + 1)
    rw [writeByte, if_pos rfl, Nat.mod_mod_of_dvd v (dvd_refl 256)]
    have hp : (256 : Nat) ^ (k + 1) = 256 * 256 ^ k := by rw [pow_succ]; ring
    rw [hp, mod_mul_decomp]

theorem readWord_writeWord (m : Mem) (a v : Nat) :
    readWord (writeWord m a v) a = v % U64 := by
  show readBytesLE (writeBytesLE m a v PTR_SIZE) a PTR_SIZE = v % U64
  rw [readBytesLE_writeBytesLE]
  norm_num [PTR_SIZE, U64]

theorem writeWord_out (m : Mem) (a v x : Nat) (h : x < a ∨ a + PTR_SIZE ≤ x) :
    writeWord m a v x = m x := by
  rcases h with h | h
  · exact writeBytesLE_lt _ _ _ _ _ h
  · exact writeBytesLE_ge _ _ _ _ _ h

theorem readWord_congr (m1 m2 : Mem) (a : Nat)
    (h : ∀ x, a ≤ x → x < a + PTR_SIZE → m1 x = m2 x) :
    readWord m1 a = readWord m2 a :=
  readBytesLE_congr _ _ _ _ h

/-! Bit-level characterisation of the alignment mask for the fixed 16-byte
alignment: `y &&& !(16 - 1)` on a 64-bit machine rounds `y` down to a
multiple of 16 (for in-range `y`). -/

theorem mask_sixteen_eq : MASK64 ^^^ 15 = ((2 : Nat) ^ 60 - 1) <<< 4 := by decide

theorem and_mask_sixteen (x : Nat) (hx : x < U64) :
    x &&& (MASK64 ^^^ 15) = 16 * (x / 16) := by
  have h16 : 16 * (x / 16) = (x >>> 4) <<< 4 := by
    rw [Nat.shiftLeft_eq, Nat.shiftRight_eq_div_pow]
    norm_num [Nat.mul_comm]
  rw [mask_sixteen_eq, h16]
  apply Nat.eq_of_testBit_eq
  intro i
  rw [Nat.testBit_and, Nat.testBit_shiftLeft, Nat.testBit_shiftLeft,
    Nat.testBit_shiftRight, Nat.testBit_two_pow_sub_one]
  by_cases h4 : 4 ≤ i
  · by_cases h64 : i < 64
    · have hlt : i - 4 < 60 := by omega
      have hi : 4 + (i - 4) = i := by omega
      simp [h4, hlt, hi]
    · have hlt : ¬ (i - 4 < 60) := by omega
      have hxb : x.testBit i = false := by
        apply Nat.testBit_lt_two_pow
        calc x < U64 := hx
          _ ≤ 2 ^ i := by
            show (2 : Nat) ^ 64 ≤ 2 ^ i
            exact Nat.pow_le_pow_right (by omega) (by omega)
      have hi : 4 + (i - 4) = i := by omega
      simp [h4, hlt, hi, hxb]
  · simp [h4]

theorem alignedOffset_sixteen (o : Nat) (h : o + 23 < U64) :
    alignedOffset o 16 = 16 * ((o + 23) / 16) := by
  show (o + PTR_SIZE + 16 - 1) &&& (MASK64 ^^^ (16 - 1)) = 16 * ((o + 23) / 16)
  have h1 : o + PTR_SIZE + 16 - 1 = o + 23 := by norm_num [PTR_SIZE]
  have h2 : (16 : Nat) - 1 = 15 := by norm_num
  rw [h1, h2, and_mask_sixteen _ h]

/-! Statement-side abbreviations: `mtotal size` is the byte count `malloc`
hands to the backend, `backendPtr`/`backendSt` name the result of the single
backend call `malloc size` performs from state `st`. -/

def mtotal (size : Nat) : Nat := (size + MALLOC_ALIGNMENT + PTR_SIZE) % U64

def backendPtr {σ : Type} (B : Backend σ) (st : St σ) (size : Nat) : Nat :=
  (B.heapAlloc st.bk (mtotal size)).1

def backendSt {σ : Type} (B : Backend σ) (st : St σ) (size : Nat) : σ :=
  (B.heapAlloc st.bk (mtotal size)).2

theorem posix_memalign_zero {σ : Type} (B : Backend σ) (st : St σ) (alignment size : Nat)
    (h : (B.heapAlloc st.bk ((size + alignment + PTR_SIZE) % U64)).1 = 0) :
    posix_memalign B st alignment size =
      (ENOMEM, none, ⟨(B.heapAlloc st.bk ((size + alignment + PTR_SIZE) % U64)).2, st.mem⟩) := by
  simp only [posix_memalign]
  rw [if_pos h]

theorem posix_memalign_pos {σ : Type} (B : Backend σ) (st : St σ) (alignment size : Nat)
    (h : (B.heapAlloc st.bk ((size + alignment + PTR_SIZE) % U64)).1 ≠ 0) :
    posix_memalign B st alignment size =
      (0,
        some (alignedOffset (B.heapAlloc st.bk ((size + alignment + PTR_SIZE) % U64)).1 alignment),
        ⟨(B.heapAlloc st.bk ((size + alignment + PTR_SIZE) % U64)).2,
          writeWord st.mem
            (alignedOffset (B.heapAlloc st.bk ((size + alignment + PTR_SIZE) % U64)).1 alignment
              - PTR_SIZE)
            (B.heapAlloc st.bk ((size + alignment + PTR_SIZE) % U64)).1⟩) := by
  simp only [posix_memalign]
  rw [if_neg h]

theorem malloc_eq_zero {σ : Type} (B : Backend σ) (st : St σ) (size : Nat)
    (h : backendPtr B st size = 0) :
    malloc B st size = (0, ⟨backendSt B st size, st.mem⟩) := by
  simp only [malloc]
  rw [posix_memalign_zero B st MALLOC_ALIGNMENT size h]
  rfl

theorem malloc_eq_pos {σ : Type} (B : Backend σ) (st : St σ) (size : Nat)
    (h : backendPtr B st size ≠ 0) :
    malloc B st size =
      (alignedOffset (backendPtr B st size) MALLOC_ALIGNMENT,
        ⟨backendSt B st size,
          writeWord st.mem
            (alignedOffset (backendPtr B st size) MALLOC_ALIGNMENT - PTR_SIZE)
            (backendPtr B st size)⟩) := by
  simp only [malloc]
  rw [posix_memalign_pos B st MALLOC_ALIGNMENT size h]
  rfl

/-! Concrete executable backends used to instantiate the theorems. -/

/-- State of a bump-allocating test heap: next fresh address and live blocks. -/
structure BumpState where
  next : Nat
  blocks : List (Nat × Nat)

def bumpAlloc (s : BumpState) (n : Nat) : Nat × BumpState :=
  (s.next, ⟨s.next + n, (s.next, n) :: s.blocks⟩)

def bumpFree (s : BumpState) (p : Nat) : BumpState :=
  ⟨s.next, s.blocks.filter (fun b => b.1 != p)⟩

def bumpSize (s : BumpState) (p : Nat) : Nat :=
  (s.blocks.findSome? (fun b => if b.1 = p then some b.2 else none)).getD 0

/-- Bump-allocator backend: blocks handed out from address 16 upward. -/
def bump : Backend BumpState := ⟨bumpAlloc, bumpFree, bumpSize⟩

/-- Initial state for the bump backend: zeroed memory. -/
def st0 : St BumpState := ⟨⟨16, []⟩, fun _ => 0⟩

/-- Initial state with recognisable garbage contents (byte at `x` is `x % 256`). -/
def stG : St BumpState := ⟨⟨16, []⟩, fun x => x % 256⟩

/-- Backend forced to exhaustion: every allocation fails. -/
def failHeap : Backend Unit := ⟨fun s _ => (0, s), fun s _ => s, fun _ _ => 0⟩

def stF : St Unit := ⟨(), fun _ => 0⟩

/-- Backend whose state records the size of every allocation request. -/
def recHeap : Backend (List Nat) := ⟨fun s n => (16, n :: s), fun s _ => s, fun _ _ => 0⟩

/-- C1: for every size, `allocate(size)` (`malloc`, via `posix_memalign` with
the fixed 16-byte alignment) returns either null or the smallest address that
is a multiple of the alignment and is at least `backend_ptr + sizeof(pointer)`;
in particular every non-null returned pointer is a multiple of 16.  The
hypotheses say the backend allocation fits in the 64-bit address space. -/
theorem malloc_null_or_smallest_aligned {σ : Type} (B : Backend σ) (st : St σ) (size : Nat)
    (hbound : backendPtr B st size ≠ 0 → backendPtr B st size + mtotal size ≤ U64)
    (hsize : size + MALLOC_ALIGNMENT + PTR_SIZE < U64) :
    (malloc B st size).1 = 0 ∨
      (backendPtr B st size + PTR_SIZE ≤ (malloc B st size).1 ∧
        (malloc B st size).1 % MALLOC_ALIGNMENT = 0 ∧
        ∀ q, q % MALLOC_ALIGNMENT = 0 → backendPtr B st size + PTR_SIZE ≤ q →
          (malloc B st size).1 ≤ q) := by
  by_cases h : backendPtr B st size = 0
  · left
    rw [malloc_eq_zero B st size h]
  · right
    rw [malloc_eq_pos B st size h]
    dsimp only
    have ht : mtotal size = size + MALLOC_ALIGNMENT + PTR_SIZE := Nat.mod_eq_of_lt hsize
    have hb := hbound h
    rw [ht] at hb
    have h23 : backendPtr B st size + 23 < U64 := by
      have h24 : (24 : Nat) ≤ size + MALLOC_ALIGNMENT + PTR_SIZE := by
        show 24 ≤ size + 16 + 8
        omega
      omega
    have hA : alignedOffset (backendPtr B st size) MALLOC_ALIGNMENT =
        16 * ((backendPtr B st size + 23) / 16) := alignedOffset_sixteen _ h23
    rw [hA]
    show backendPtr B st size + 8 ≤ 16 * ((backendPtr B st size + 23) / 16) ∧
      16 * ((backendPtr B st size + 23) / 16) % 16 = 0 ∧
      ∀ q, q % 16 = 0 → backendPtr B st size + 8 ≤ q →
        16 * ((backendPtr B st size + 23) / 16) ≤ q
    refine ⟨by omega, by omega, ?_⟩
    intro q hq1 hq2
    omega

theorem malloc_null_or_smallest_aligned_witness :
    backendPtr bump st0 5 + PTR_SIZE ≤ (malloc bump st0 5).1 ∧
    (malloc bump st0 5).1 % MALLOC_ALIGNMENT = 0 :=
  have h := (malloc_null_or_smallest_aligned bump st0 5 (by decide)
    (by decide)).resolve_left (by decide)
  ⟨h.1, h.2.1⟩

/-- C2: for every non-null pointer returned by `allocate`, the pointer-sized
word at `p - sizeof(pointer)` equals exactly the backend pointer of the
enclosing allocation; `free(p)` reads back precisely that word and passes it
to the backend free, and `free(null)` is a no-op. -/
theorem malloc_header_and_free {σ : Type} (B : Backend σ) (st : St σ) (size : Nat)
    (h1 : (malloc B st size).1 ≠ 0)
    (h2 : backendPtr B st size < U64) :
    readWord (malloc B st size).2.mem ((malloc B st size).1 - PTR_SIZE) =
      backendPtr B st size ∧
    free B (malloc B st size).2 (malloc B st size).1 =
      ⟨B.heapFree (malloc B st size).2.bk (backendPtr B st size),
        (malloc B st size).2.mem⟩ ∧
    free B st 0 = st := by
  have ho : backendPtr B st size ≠ 0 := by
    intro h0
    apply h1
    rw [malloc_eq_zero B st size h0]
  rw [malloc_eq_pos B st size ho] at h1 ⊢
  dsimp only at h1 ⊢
  have hdr : readWord
      (writeWord st.mem
        (alignedOffset (backendPtr B st size) MALLOC_ALIGNMENT - PTR_SIZE)
        (backendPtr B st size))
      (alignedOffset (backendPtr B st size) MALLOC_ALIGNMENT - PTR_SIZE) =
      backendPtr B st size := by
    rw [readWord_writeWord, Nat.mod_eq_of_lt h2]
  refine ⟨hdr, ?_, ?_⟩
  · show free B _ _ = _
    rw [free, if_neg h1, hdr]
  · rw [free, if_pos rfl]

theorem malloc_header_and_free_witness :
    readWord (malloc bump st0 1).2.mem ((malloc bump st0 1).1 - PTR_SIZE) =
      backendPtr bump st0 1 ∧
    free bump (malloc bump st0 1).2 (malloc bump st0 1).1 =
      ⟨bump.heapFree (malloc bump st0 1).2.bk (backendPtr bump st0 1),
        (malloc bump st0 1).2.mem⟩ ∧
    free bump st0 0 = st0 :=
  malloc_header_and_free bump st0 1 (by decide) (by decide)

/-- C7: `resize(null, n)` yields the same observable result as `allocate(n)`:
the two embedded functions agree on null input, result and state alike. -/
theorem realloc_null_eq_malloc {σ : Type} (B : Backend σ) (st : St σ) (n : Nat) :
    realloc B st 0 n = malloc B st n := by
  rw [realloc, if_pos rfl]

/-- C8: for every non-null pointer, `resize(p, 0)` frees `p` — the backend
pointer recovered from the header is released through the backend free — and
returns the null pointer, never a fresh block. -/
theorem realloc_zero_frees {σ : Type} (B : Backend σ) (st : St σ) (p : Nat)
    (h : p ≠ 0) :
    realloc B st p 0 =
      (0, ⟨B.heapFree st.bk (readWord st.mem (p - PTR_SIZE)), st.mem⟩) := by
  rw [realloc, if_neg h, if_pos rfl, free, if_neg h]

theorem realloc_zero_frees_witness :
    realloc bump st0 5 0 =
      (0, ⟨bump.heapFree st0.bk (readWord st0.mem (5 - PTR_SIZE)), st0.mem⟩) :=
  realloc_zero_frees bump st0 5 (by decide)

/-- C3 counterexample: the claim says `allocate(size)` requests exactly
`size + alignment + sizeof(pointer) - 1` bytes from the backend; at
`size = 0` the code requests `0 + 16 + 8 = 24` bytes (recorded by the
request-logging backend), not `23`. -/
theorem malloc_request_size_counterexample :
    (malloc recHeap ⟨[], fun _ => 0⟩ 0).2.bk = [24] ∧
    (24 : Nat) ≠ 0 + MALLOC_ALIGNMENT + PTR_SIZE - 1 := by
  constructor
  · decide
  · decide

/-- C3 amended: `allocate(size)` requests exactly
`size + alignment + sizeof(pointer)` bytes (reduced mod 2^64) from the
backend heap primitive, one byte more than the minimal
`size + alignment + sizeof(pointer) - 1`; likewise `posix_memalign` requests
`size + alignment + sizeof(pointer)` bytes. -/
theorem malloc_request_size (log : List Nat) (m : Mem) (alignment size : Nat) :
    (malloc recHeap ⟨log, m⟩ size).2.bk =
      ((size + MALLOC_ALIGNMENT + PTR_SIZE) % U64) :: log ∧
    ((posix_memalign recHeap ⟨log, m⟩ alignment size).2.2).bk =
      ((size + alignment + PTR_SIZE) % U64) :: log := by
  constructor
  · have h : backendPtr recHeap (⟨log, m⟩ : St (List Nat)) size ≠ 0 := by
      show (16 : Nat) ≠ 0
      decide
    rw [malloc_eq_pos recHeap ⟨log, m⟩ size h]
    rfl
  · have h : (recHeap.heapAlloc (St.bk ⟨log, m⟩) ((size + alignment + PTR_SIZE) % U64)).1 ≠ 0 := by
      show (16 : Nat) ≠ 0
      decide
    rw [posix_memalign_pos recHeap ⟨log, m⟩ alignment size h]
    rfl

/-- C6: for every alignment and size, when the backend allocation fails,
`posix_memalign` returns the out-of-memory code 12 (ENOMEM), never writes the
out-pointer and leaves memory untouched; on success it returns 0 and writes
the aligned pointer through the out-pointer. -/
theorem aligned_allocate_oom {σ : Type} (B : Backend σ) (st : St σ) (alignment size : Nat) :
    ((B.heapAlloc st.bk ((size + alignment + PTR_SIZE) % U64)).1 = 0 →
      posix_memalign B st alignment size =
        (ENOMEM, none,
          ⟨(B.heapAlloc st.bk ((size + alignment + PTR_SIZE) % U64)).2, st.mem⟩)) ∧
    ((B.heapAlloc st.bk ((size + alignment + PTR_SIZE) % U64)).1 ≠ 0 →
      (posix_memalign B st alignment size).1 = 0 ∧
      (posix_memalign B st alignment size).2.1 =
        some (alignedOffset
          (B.heapAlloc st.bk ((size + alignment + PTR_SIZE) % U64)).1 alignment)) := by
  constructor
  · intro h
    exact posix_memalign_zero B st alignment size h
  · intro h
    rw [posix_memalign_pos B st alignment size h]
    exact ⟨rfl, rfl⟩

theorem aligned_allocate_oom_witness :
    posix_memalign failHeap stF 16 5 = (ENOMEM, none, ⟨(), stF.mem⟩) ∧
    (posix_memalign bump st0 16 5).1 = 0 ∧
    (posix_memalign bump st0 16 5).2.1 = some (alignedOffset 16 16) :=
  ⟨(aligned_allocate_oom failHeap stF 16 5).1 rfl,
    (aligned_allocate_oom bump st0 16 5).2 (by decide)⟩

/-- C9: `zero_allocate(n, s)` computes `total = n * s`, calls `allocate(total)`
(same returned pointer), and when the result is non-null every one of the
first `n * s` bytes of the block reads as zero. -/
theorem calloc_zero_fills {σ : Type} (B : Backend σ) (st : St σ) (n s : Nat)
    (h : n * s < U64) :
    (calloc B st n s).1 = (malloc B st (n * s)).1 ∧
    ((calloc B st n s).1 ≠ 0 →
      ∀ i, i < n * s → (calloc B st n s).2.mem ((calloc B st n s).1 + i) % 256 = 0) := by
  have ht : n * s % U64 = n * s := Nat.mod_eq_of_lt h
  simp only [calloc, ht]
  by_cases hr : (malloc B st (n * s)).1 ≠ 0
  · rw [if_pos hr]
    refine ⟨rfl, ?_⟩
    intro _ i hi
    show setRange (malloc B st (n * s)).2.mem (malloc B st (n * s)).1 (n * s) 0
      ((malloc B st (n * s)).1 + i) % 256 = 0
    rw [setRange]
    rw [if_pos ⟨by omega, by omega⟩]
  · rw [if_neg hr]
    exact ⟨rfl, fun hc => absurd hc hr⟩

theorem calloc_zero_fills_witness :
    (calloc bump st0 4 4).1 = (malloc bump st0 16).1 ∧
    (calloc bump st0 4 4).2.mem ((calloc bump st0 4 4).1 + 0) % 256 = 0 ∧
    (calloc bump st0 4 4).2.mem ((calloc bump st0 4 4).1 + 15) % 256 = 0 :=
  ⟨(calloc_zero_fills bump st0 4 4 (by decide)).1,
    (calloc_zero_fills bump st0 4 4 (by decide)).2 (by decide) 0 (by decide),
    (calloc_zero_fills bump st0 4 4 (by decide)).2 (by decide) 15 (by decide)⟩

/-- C10: `usable_size(null)` is 0, and for a pointer freshly returned by
`allocate` with requested size `size`, `usable_size` recovers the backend
pointer through the header and returns the backend's reported usable size for
it, which is at least `size` (the backend reports at least the requested
total, hypothesis `h3`). -/
theorem usable_size_spec {σ : Type} (B : Backend σ) (st : St σ) (size : Nat)
    (h1 : (malloc B st size).1 ≠ 0)
    (h2 : backendPtr B st size < U64)
    (h3 : size + MALLOC_ALIGNMENT + PTR_SIZE ≤
      B.heapSize (malloc B st size).2.bk (backendPtr B st size)) :
    malloc_usable_size B st 0 = 0 ∧
    malloc_usable_size B (malloc B st size).2 (malloc B st size).1 =
      B.heapSize (malloc B st size).2.bk (backendPtr B st size) ∧
    size ≤ malloc_usable_size B (malloc B st size).2 (malloc B st size).1 := by
  have ho : backendPtr B st size ≠ 0 := by
    intro h0
    apply h1
    rw [malloc_eq_zero B st size h0]
  rw [malloc_eq_pos B st size ho] at h1 h3 ⊢
  dsimp only at h1 h3 ⊢
  have husz : malloc_usable_size B
      (⟨backendSt B st size,
        writeWord st.mem
          (alignedOffset (backendPtr B st size) MALLOC_ALIGNMENT - PTR_SIZE)
          (backendPtr B st size)⟩ : St σ)
      (alignedOffset (backendPtr B st size) MALLOC_ALIGNMENT) =
      B.heapSize (backendSt B st size) (backendPtr B st size) := by
    rw [malloc_usable_size, if_neg h1]
    dsimp only
    rw [readWord_writeWord, Nat.mod_eq_of_lt h2]
  refine ⟨?_, husz, ?_⟩
  · rw [malloc_usable_size, if_pos rfl]
  · rw [husz]
    omega

theorem usable_size_spec_witness :
    malloc_usable_size bump st0 0 = 0 ∧
    malloc_usable_size bump (malloc bump st0 1).2 (malloc bump st0 1).1 =
      bump.heapSize (malloc bump st0 1).2.bk (backendPtr bump st0 1) ∧
    1 ≤ malloc_usable_size bump (malloc bump st0 1).2 (malloc bump st0 1).1 :=
  usable_size_spec bump st0 1 (by decide) (by decide) (by decide)

/-- C5: growth preservation.  With `p` a block whose header (at
`p - sizeof(pointer)`) is intact and whose backend block reports at least `S`
usable bytes, resizing to `S2 > S` through a backend whose fresh block does
not overlap the old one copies the old user bytes, so the first `S` bytes of
the non-null result equal the original pattern. -/
theorem realloc_growth_preserves_prefix {σ : Type} (B : Backend σ) (st : St σ)
    (p S S2 : Nat)
    (hp : p ≠ 0) (hp8 : PTR_SIZE ≤ p) (hS : S < S2)
    (hq : (malloc B st S2).1 ≠ 0)
    (hq8 : PTR_SIZE ≤ (malloc B st S2).1)
    (hsep : ∀ a, a < p + S2 → p - PTR_SIZE ≤ a →
      ¬ ((malloc B st S2).1 - PTR_SIZE ≤ a ∧ a < (malloc B st S2).1 + S2))
    (husable : S ≤ B.heapSize (malloc B st S2).2.bk (readWord st.mem (p - PTR_SIZE))) :
    (realloc B st p S2).1 = (malloc B st S2).1 ∧
    ∀ i, i < S → (realloc B st p S2).2.mem ((malloc B st S2).1 + i) = st.mem (p + i) := by
  have ho2 : backendPtr B st S2 ≠ 0 := by
    intro h0
    apply hq
    rw [malloc_eq_zero B st S2 h0]
  have hmal := malloc_eq_pos B st S2 ho2
  rw [hmal] at hq hq8 hsep husable
  dsimp only at hq hq8 hsep husable
  have hread : readWord
      (writeWord st.mem
        (alignedOffset (backendPtr B st S2) MALLOC_ALIGNMENT - PTR_SIZE)
        (backendPtr B st S2))
      (p - PTR_SIZE) = readWord st.mem (p - PTR_SIZE) := by
    apply readWord_congr
    intro x hx1 hx2
    apply writeWord_out
    have hx3 : x < p + S2 := by omega
    have := hsep x hx3 hx1
    omega
  simp only [realloc]
  rw [if_neg hp, if_neg (by omega : ¬ S2 = 0), hmal]
  dsimp only
  rw [if_pos hq]
  rw [malloc_usable_size, if_neg hp]
  dsimp only
  rw [hread]
  have hcs : S ≤ if B.heapSize (backendSt B st S2) (readWord st.mem (p - PTR_SIZE)) < S2
      then B.heapSize (backendSt B st S2) (readWord st.mem (p - PTR_SIZE)) else S2 := by
    split
    · omega
    · omega
  rw [free, if_neg hp]
  dsimp only
  refine ⟨rfl, ?_⟩
  intro i hi
  rw [copyMem]
  rw [if_pos ⟨Nat.le_add_right _ _, by omega⟩]
  have hsub : alignedOffset (backendPtr B st S2) MALLOC_ALIGNMENT + i -
      alignedOffset (backendPtr B st S2) MALLOC_ALIGNMENT = i := by omega
  rw [hsub]
  apply writeWord_out
  have hx3 : p + i < p + S2 := by omega
  have hx1 : p - PTR_SIZE ≤ p + i := by omega
  have := hsep (p + i) hx3 hx1
  omega

/-- State used to instantiate C5: a 2-byte block allocated at user address 32
from the bump backend, with the pattern bytes 171 and 205 written into it. -/
def stP : St BumpState :=
  ⟨(malloc bump st0 2).2.bk,
    writeByte (writeByte (malloc bump st0 2).2.mem 32 171) 33 205⟩

theorem realloc_growth_preserves_prefix_witness :
    (realloc bump stP 32 5).1 = (malloc bump stP 5).1 ∧
    (realloc bump stP 32 5).2.mem ((malloc bump stP 5).1 + 0) = stP.mem (32 + 0) ∧
    (realloc bump stP 32 5).2.mem ((malloc bump stP 5).1 + 1) = stP.mem (32 + 1) :=
  have h := realloc_growth_preserves_prefix bump stP 32 2 5 (by decide) (by decide)
    (by decide) (by decide) (by decide) (by decide) (by decide)
  ⟨h.1, h.2 0 (by decide), h.2 1 (by decide)⟩

/-- C4 evidence: the resize copy reads past the end of the old backend block.
Allocating 1 byte from the bump backend puts the backend block at
`[16, 16 + 25)` and the user pointer at 32; resizing to 100 copies
`min(usable_size, 100) = 25` bytes starting from the user pointer, so the
byte landing at offset 9 of the new block is read from address
`32 + 9 = 41 = 16 + 25`, one past the end of the old backend allocation
(it holds the garbage byte 41 of the initial memory, which the program
never wrote). -/
theorem realloc_copy_reads_past_block :
    (malloc bump stG 1).1 = 32 ∧
    bump.heapSize (malloc bump stG 1).2.bk 16 = 25 ∧
    (malloc bump stG 1).1 + 9 = 16 + bump.heapSize (malloc bump stG 1).2.bk 16 ∧
    (realloc bump (malloc bump stG 1).2 32 100).2.mem
      ((realloc bump (malloc bump stG 1).2 32 100).1 + 9) = stG.mem 41 ∧
    stG.mem 41 = 41 := by
  refine ⟨by decide, by decide, by decide, by decide, by decide⟩

end WinMalloc
